import Mathlib

/-!
Verification of the natural-language task-parsing core of a personal task
manager (`task_manager.py`, `ai_assistant.py`, `database.py`).

The Python code is shallowly embedded: regular-expression searches are
translated into specialized matchers over `List Char` that reproduce the
leftmost-match, ordered-alternative and greedy/lazy quantifier behaviour of
the specific patterns used by the source; `datetime` values are modelled by
the `DateTime` structure below; the single `datetime.now()` call inside
`_extract_due_date` is modelled as an explicit reference-time parameter; a
Python `ValueError` (raised by `datetime.replace` on an out-of-range hour or
minute) is modelled as `Except.error ()`.
-/

/-- The ASCII whitespace characters matched by Python's regex class
`\s` and stripped by `str.strip()`. -/
def pythonSpace (c : Char) : Bool :=
  c = ' ' || c = '\t' || c = '\n' || c = '\r' || c = '\x0b' || c = '\x0c'

/-- The ASCII characters matched by Python's regex class `\w`. -/
def wordChar (c : Char) : Bool :=
  c.isAlphanum || c = '_'

/-- Python `int()` on a string of decimal digits. -/
def natOfDigits (cs : List Char) : Nat :=
  cs.foldl (fun a c => 10 * a + (c.toNat - 48)) 0

/-- Python's substring containment test `needle in hay`. -/
def containsSub (needle : List Char) : List Char → Bool
  | [] => needle.isEmpty
  | c :: rest => needle.isPrefixOf (c :: rest) || containsSub needle rest

/-- Case-insensitive literal match: if the lower-cased input starts with
`pat` (given lower-case), return the remainder. -/
def ciPrefixDrop (pat : List Char) (cs : List Char) : Option (List Char) :=
  match pat, cs with
  | [], rest => some rest
  | _ :: _, [] => none
  | p :: ps, c :: cs2 => if c.toLower = p then ciPrefixDrop ps cs2 else none

/-- Python `str.strip()` restricted to the ASCII whitespace set. -/
def trimChars (cs : List Char) : List Char :=
  ((cs.dropWhile pythonSpace).reverse.dropWhile pythonSpace).reverse

/-- Python `str.lower()` (ASCII). -/
def toLowerStr (s : String) : String :=
  String.mk (s.data.map Char.toLower)

/-- Python `str.strip()` on a `String`. -/
def strTrim (s : String) : String :=
  String.mk (trimChars s.data)

/-- `re.search`: try the position matcher `m` at every start position from
the left; the first position where it succeeds wins. -/
def searchWith {α : Type} (m : List Char → Option α) : List Char → Option α
  | [] => m []
  | c :: cs =>
    match m (c :: cs) with
    | some r => some r
    | none => searchWith m cs

/-- A naive (timezone-free) `datetime.datetime`: a calendar day index plus a
time of day. Python guarantees `hour < 24`, `minute < 60`, `second < 60`,
`microsecond < 1000000` for every constructed datetime (`Valid` below). -/
structure DateTime where
  day : Int
  hour : Nat
  minute : Nat
  second : Nat
  micro : Nat
deriving DecidableEq

/-- Total number of microseconds since the epoch; datetime comparison and
timedelta arithmetic are defined through this value. -/
def DateTime.toMicros (t : DateTime) : Int :=
  t.day * 86400000000 +
    (((t.hour * 3600 + t.minute * 60 + t.second) * 1000000 + t.micro : Nat) : Int)

/-- Rebuild a datetime from a microsecond count (timedelta normalization). -/
def DateTime.ofMicros (n : Int) : DateTime :=
  let r := (n.emod 86400000000).toNat
  { day := n.ediv 86400000000
    hour := r / 3600000000
    minute := r % 3600000000 / 60000000
    second := r % 60000000 / 1000000
    micro := r % 1000000 }

/-- `t + datetime.timedelta(days=n)` on a naive datetime: the time of day is
unchanged and the calendar day advances by `n`. -/
def DateTime.addDays (t : DateTime) (n : Int) : DateTime :=
  { t with day := t.day + n }

/-- `t.replace(hour=h, minute=m, second=0, microsecond=0)`: Python raises
`ValueError` when the hour or minute is out of range, modelled as `none`. -/
def DateTime.replaceHM (t : DateTime) (h m : Nat) : Option DateTime :=
  if h < 24 ∧ m < 60 then
    some { day := t.day, hour := h, minute := m, second := 0, micro := 0 }
  else
    none

/-- The field ranges every real Python datetime satisfies. -/
def DateTime.Valid (t : DateTime) : Prop :=
  t.hour < 24 ∧ t.minute < 60 ∧ t.second < 60 ∧ t.micro < 1000000

instance (t : DateTime) : Decidable t.Valid := by
  unfold DateTime.Valid; infer_instance

/-- The am/pm capture of the clock-time regex group `(am|pm)`. -/
inductive AmPm where
  | am
  | pm
deriving DecidableEq

/-- Reading the `(am|pm)` group at the current position (lower-case input). -/
def readAmPm (cs : List Char) : Option AmPm :=
  if "am".data.isPrefixOf cs then some AmPm.am
  else if "pm".data.isPrefixOf cs then some AmPm.pm
  else none

/-- `re.match(r'(\d{1,2})(?::(\d{2}))?\s*(am|pm)?', time_str)` from
`_parse_time_expression`: anchored at the start, greedy digits, optional
`:MM` group (defaulting to minute 0), optional am/pm marker. -/
def matchTime (cs : List Char) : Option (Nat × Nat × Option AmPm) :=
  match cs with
  | [] => none
  | c1 :: rest1 =>
    if c1.isDigit then
      let hd :=
        match rest1 with
        | c2 :: r => if c2.isDigit then ([c1, c2], r) else ([c1], c2 :: r)
        | [] => ([c1], ([] : List Char))
      let md :=
        match hd.2 with
        | ':' :: a :: b :: r =>
          if a.isDigit && b.isDigit then (natOfDigits [a, b], r) else (0, hd.2)
        | _ => (0, hd.2)
      some (natOfDigits hd.1, md.1, readAmPm (md.2.dropWhile pythonSpace))
    else none

/-- The 24-hour conversion of `_parse_time_expression` (lines 150-154):
`pm` with hour ≠ 12 adds 12; `am` with hour 12 maps to 0. -/
def hour24 (period : Option AmPm) (hour : Nat) : Nat :=
  if period = some AmPm.pm ∧ hour ≠ 12 then hour + 12
  else if period = some AmPm.am ∧ hour = 12 then 0
  else hour

/-- The capturing alternative `\d{1,2}(?::\d{2})?\s*(?:am|pm|AM|PM)?` shared
by the `by`- and `at`-patterns of `_extract_due_date`; returns the captured
text (greedy digits, optional colon group, greedy whitespace, optional
case-sensitive am/pm variant). -/
def matchGroupTime (cs : List Char) : Option (List Char) :=
  match cs with
  | [] => none
  | c1 :: rest1 =>
    if c1.isDigit then
      let hd :=
        match rest1 with
        | c2 :: r => if c2.isDigit then ([c1, c2], r) else ([c1], c2 :: r)
        | [] => ([c1], ([] : List Char))
      let md :=
        match hd.2 with
        | ':' :: a :: b :: r =>
          if a.isDigit && b.isDigit then ([':', a, b], r) else ([], hd.2)
        | _ => (([] : List Char), hd.2)
      let sp := md.2.takeWhile pythonSpace
      let rest4 := md.2.dropWhile pythonSpace
      let ampm :=
        if "am".data.isPrefixOf rest4 || "pm".data.isPrefixOf rest4 ||
           "AM".data.isPrefixOf rest4 || "PM".data.isPrefixOf rest4 then
          rest4.take 2
        else []
      some (hd.1 ++ md.1 ++ sp ++ ampm)
    else none

/-- The alternative `next\s+\w+` of the `by`-pattern. -/
def matchNextWord (cs : List Char) : Option (List Char) :=
  if "next".data.isPrefixOf cs then
    let rest := cs.drop 4
    let sp := rest.takeWhile pythonSpace
    if sp.isEmpty then none
    else
      let w := (rest.dropWhile pythonSpace).takeWhile wordChar
      if w.isEmpty then none else some ("next".data ++ sp ++ w)
  else none

/-- Position matcher for
`by\s+(\d{1,2}(?::\d{2})?\s*(?:am|pm|AM|PM)?|tomorrow|today|next\s+\w+)`;
alternatives are tried in the pattern's left-to-right order and the captured
group is returned. -/
def matchByAt (cs : List Char) : Option (List Char) :=
  match cs with
  | 'b' :: 'y' :: rest =>
    if (rest.takeWhile pythonSpace).isEmpty then none
    else
      let body := rest.dropWhile pythonSpace
      match matchGroupTime body with
      | some cap => some cap
      | none =>
        if "tomorrow".data.isPrefixOf body then some "tomorrow".data
        else if "today".data.isPrefixOf body then some "today".data
        else matchNextWord body
  | _ => none

/-- Position matcher for
`at\s+(\d{1,2}(?::\d{2})?\s*(?:am|pm|AM|PM)?|noon|midnight)`. -/
def matchAtAt (cs : List Char) : Option (List Char) :=
  match cs with
  | 'a' :: 't' :: rest =>
    if (rest.takeWhile pythonSpace).isEmpty then none
    else
      let body := rest.dropWhile pythonSpace
      match matchGroupTime body with
      | some cap => some cap
      | none =>
        if "noon".data.isPrefixOf body then some "noon".data
        else if "midnight".data.isPrefixOf body then some "midnight".data
        else none
  | _ => none

/-- The unit alternative `(minutes?|hours?|days?)` (case-sensitive), with
the greedy optional plural `s`; returns the captured unit text. -/
def matchUnit (cs : List Char) : Option (List Char) :=
  if "minute".data.isPrefixOf cs then
    some (if "minutes".data.isPrefixOf cs then "minutes".data else "minute".data)
  else if "hour".data.isPrefixOf cs then
    some (if "hours".data.isPrefixOf cs then "hours".data else "hour".data)
  else if "day".data.isPrefixOf cs then
    some (if "days".data.isPrefixOf cs then "days".data else "day".data)
  else none

/-- Position matcher for `in\s+(\d+)\s+(minutes?|hours?|days?)`; returns the
numeric amount and the captured unit. -/
def matchInAt (cs : List Char) : Option (Nat × List Char) :=
  match cs with
  | 'i' :: 'n' :: rest =>
    if (rest.takeWhile pythonSpace).isEmpty then none
    else
      let r1 := rest.dropWhile pythonSpace
      let ds := r1.takeWhile Char.isDigit
      if ds.isEmpty then none
      else
        let r2 := r1.dropWhile Char.isDigit
        if (r2.takeWhile pythonSpace).isEmpty then none
        else
          match matchUnit (r2.dropWhile pythonSpace) with
          | some u => some (natOfDigits ds, u)
          | none => none
  | _ => none

/-- `TaskManager._calculate_relative_time`: add `amount` units to the base
time; an unrecognized unit yields `None`. -/
def calcRelativeTime (amount : Nat) (unit : List Char) (baseTime : DateTime) :
    Option DateTime :=
  if "minute".data.isPrefixOf unit then
    some (DateTime.ofMicros (baseTime.toMicros + (amount : Int) * 60000000))
  else if "hour".data.isPrefixOf unit then
    some (DateTime.ofMicros (baseTime.toMicros + (amount : Int) * 3600000000))
  else if "day".data.isPrefixOf unit then
    some (DateTime.ofMicros (baseTime.toMicros + (amount : Int) * 86400000000))
  else none

/-- `TaskManager._parse_time_expression`: lower-case the expression, handle
the literal keywords, then the clock-time pattern; `Except.error ()` models
the `ValueError` that `datetime.replace` raises on an out-of-range hour or
minute; `.ok none` models returning `None` when nothing matches. -/
def parseTimeExprChars (timeStr : List Char) (baseTime : DateTime) :
    Except Unit (Option DateTime) :=
  let ts := timeStr.map Char.toLower
  if ts = "tomorrow".data then
    match (baseTime.addDays 1).replaceHM 9 0 with
    | some t => .ok (some t)
    | none => .error ()
  else if ts = "today".data then
    match baseTime.replaceHM 18 0 with
    | some t => .ok (some t)
    | none => .error ()
  else if ts = "noon".data then
    match baseTime.replaceHM 12 0 with
    | some t => .ok (some t)
    | none => .error ()
  else if ts = "midnight".data then
    match baseTime.replaceHM 0 0 with
    | some t => .ok (some t)
    | none => .error ()
  else
    match matchTime ts with
    | some (hourVal, minuteVal, period) =>
      match baseTime.replaceHM (hour24 period hourVal) minuteVal with
      | some resultTime =>
        .ok (some (if resultTime.toMicros ≤ baseTime.toMicros then
                     resultTime.addDays 1
                   else resultTime))
      | none => .error ()
    | none => .ok none

/-- `TaskManager._extract_due_date`: the `by`, `at` and `in` regex searches
are tried in order; the first pattern that matches textually has its capture
resolved (stripped first) and that resolution is returned, whatever it is;
`now` models the `datetime.now()` read at the top of the function. -/
def extractDueDate (text : String) (now : DateTime) :
    Except Unit (Option DateTime) :=
  match searchWith matchByAt text.data with
  | some cap => parseTimeExprChars (trimChars cap) now
  | none =>
    match searchWith matchAtAt text.data with
    | some cap => parseTimeExprChars (trimChars cap) now
    | none =>
      match searchWith matchInAt text.data with
      | some r => .ok (calcRelativeTime r.1 r.2 now)
      | none => .ok none

/-- The `at`-family step of `_extract_due_date` (lines 92-98) in isolation:
search for the `at` pattern and resolve its capture. -/
def atFamily (text : String) (now : DateTime) : Except Unit (Option DateTime) :=
  match searchWith matchAtAt text.data with
  | some cap => parseTimeExprChars (trimChars cap) now
  | none => .ok none

/-- The keyword-to-priority table `TaskManager.priority_keywords`, in the
dict's insertion order high, medium, low. -/
def priorityKeywords : List (String × List String) :=
  [("high", ["urgent", "asap", "immediately", "critical", "important", "high"]),
   ("medium", ["normal", "regular", "medium"]),
   ("low", ["low", "later", "whenever", "optional"])]

/-- Python `any(keyword in text for keyword in kws)`. -/
def hasAnyKeyword (kws : List String) (text : String) : Bool :=
  kws.any (fun k => containsSub k.data text.data)

/-- The nested loops of `TaskManager._extract_priority`: the first table
entry one of whose keywords occurs as a substring wins. -/
def findPriority : List (String × List String) → String → Option String
  | [], _ => none
  | (p, kws) :: rest, text =>
    if hasAnyKeyword kws text then some p else findPriority rest text

/-- `TaskManager._extract_priority` on the (already lower-cased) text. -/
def extractPriority (text : String) : Option String :=
  findPriority priorityKeywords text

/-- Python's `$` anchor (no MULTILINE): end of string, or just before a
single trailing newline. -/
def atEndPy (cs : List Char) : Bool :=
  cs.isEmpty || cs = ['\n']

/-- The stop group `(?:\s+by|\s+at|\s+in|$)` of the description patterns:
either the anchor, or at least one whitespace character followed by a
case-insensitive `by`, `at` or `in`. -/
def stopOk (cs : List Char) : Bool :=
  atEndPy cs ||
    (match cs with
     | c :: rest =>
       if pythonSpace c then
         let r := rest.dropWhile pythonSpace
         (ciPrefixDrop "by".data r).isSome || (ciPrefixDrop "at".data r).isSome ||
           (ciPrefixDrop "in".data r).isSome
       else false
     | [] => false)

/-- The lazy group `(.+?)` followed by the stop group: try the shortest
capture first, extending one character at a time; `.` does not match a
newline. -/
def lazyCap : List Char → Option (List Char)
  | [] => none
  | c :: rest =>
    if c = '\n' then none
    else if stopOk rest then some [c]
    else
      match lazyCap rest with
      | some cap => some (c :: cap)
      | none => none

/-- Backtracking of the greedy `\s+` before the lazy capture: consume
`i` whitespace characters (starting from the maximal run), retrying with one
fewer on failure; at least one is required. -/
def descTry (cs : List Char) : Nat → Option (List Char)
  | 0 => none
  | i + 1 =>
    match lazyCap (cs.drop (i + 1)) with
    | some cap => some cap
    | none => descTry cs i

/-- Position matcher for `kw\s+(.+?)(?:\s+by|\s+at|\s+in|$)` with
`re.IGNORECASE` (`kw` is `to` or `about`). -/
def matchDescAt (kw : List Char) (cs : List Char) : Option (List Char) :=
  match ciPrefixDrop kw cs with
  | none => none
  | some rest => descTry rest (rest.takeWhile pythonSpace).length

/-- `TaskManager._extract_description`: the `to`-pattern is searched first;
only if it matches nowhere is the `about`-pattern tried; the capture is
stripped; no match yields the empty string. -/
def extractDescription (text : String) : String :=
  match searchWith (matchDescAt "to".data) text.data with
  | some cap => String.mk (trimChars cap)
  | none =>
    match searchWith (matchDescAt "about".data) text.data with
    | some cap => String.mk (trimChars cap)
    | none => ""

/-- The `\s+` step of the title-cleaning patterns: at least one whitespace
character, consumed greedily. -/
def dropSpaces1 (cs : List Char) : Option (List Char) :=
  match cs with
  | c :: rest => if pythonSpace c then some (rest.dropWhile pythonSpace) else none
  | [] => none

/-- The optional plural `s?` under `re.IGNORECASE`. -/
def dropOptionalS (cs : List Char) : List Char :=
  match cs with
  | c :: r => if c.toLower = 's' then r else cs
  | [] => []

/-- `(?:minutes?|hours?|days?)` under `re.IGNORECASE`, consuming. -/
def ciUnitDrop (cs : List Char) : Option (List Char) :=
  match ciPrefixDrop "minute".data cs with
  | some r => some (dropOptionalS r)
  | none =>
    match ciPrefixDrop "hour".data cs with
    | some r => some (dropOptionalS r)
    | none =>
      match ciPrefixDrop "day".data cs with
      | some r => some (dropOptionalS r)
      | none => none

/-- `\d{1,2}(?::\d{2})?\s*(?:am|pm|AM|PM)?` under `re.IGNORECASE`, consuming
(used by the title-cleaning patterns); returns the rest after the match. -/
def cleanClockTail (cs : List Char) : Option (List Char) :=
  match cs with
  | [] => none
  | c1 :: rest1 =>
    if c1.isDigit then
      let rest2 :=
        match rest1 with
        | c2 :: r => if c2.isDigit then r else c2 :: r
        | [] => []
      let rest3 :=
        match rest2 with
        | ':' :: a :: b :: r => if a.isDigit && b.isDigit then r else rest2
        | _ => rest2
      let rest4 := rest3.dropWhile pythonSpace
      let rest5 :=
        match rest4 with
        | x :: y :: r =>
          if (x.toLower = 'a' || x.toLower = 'p') && y.toLower = 'm' then r
          else rest4
        | _ => rest4
      some rest5
    else none

/-- Position matcher for `\s+by\s+\d{1,2}(?::\d{2})?\s*(?:am|pm|AM|PM)?`
(IGNORECASE), the first pattern removed by `_clean_title_from_date`. -/
def matchCleanByTime (cs : List Char) : Option (List Char) :=
  match dropSpaces1 cs with
  | none => none
  | some r1 =>
    match ciPrefixDrop "by".data r1 with
    | none => none
    | some r2 =>
      match dropSpaces1 r2 with
      | none => none
      | some r3 => cleanClockTail r3

/-- Position matcher for `\s+at\s+\d{1,2}(?::\d{2})?\s*(?:am|pm|AM|PM)?`. -/
def matchCleanAtTime (cs : List Char) : Option (List Char) :=
  match dropSpaces1 cs with
  | none => none
  | some r1 =>
    match ciPrefixDrop "at".data r1 with
    | none => none
    | some r2 =>
      match dropSpaces1 r2 with
      | none => none
      | some r3 => cleanClockTail r3

/-- Position matcher for `\s+in\s+\d+\s+(?:minutes?|hours?|days?)`. -/
def matchCleanInRelative (cs : List Char) : Option (List Char) :=
  match dropSpaces1 cs with
  | none => none
  | some r1 =>
    match ciPrefixDrop "in".data r1 with
    | none => none
    | some r2 =>
      match dropSpaces1 r2 with
      | none => none
      | some r3 =>
        if (r3.takeWhile Char.isDigit).isEmpty then none
        else
          match dropSpaces1 (r3.dropWhile Char.isDigit) with
          | none => none
          | some r4 => ciUnitDrop r4

/-- Position matcher for the literal phrase patterns `\s+w1\s+w2`
(IGNORECASE), e.g. `\s+by\s+tomorrow`. -/
def matchCleanPhrase (w1 w2 : List Char) (cs : List Char) : Option (List Char) :=
  match dropSpaces1 cs with
  | none => none
  | some r1 =>
    match ciPrefixDrop w1 r1 with
    | none => none
    | some r2 =>
      match dropSpaces1 r2 with
      | none => none
      | some r3 => ciPrefixDrop w2 r3

/-- `re.sub(pattern, '', text)`: remove every non-overlapping occurrence,
scanning left to right. The fuel argument (initially the text length) only
serves termination; each pattern here consumes at least one character. -/
def subAux (pat : List Char → Option (List Char)) : Nat → List Char → List Char
  | _, [] => []
  | 0, cs => cs
  | fuel + 1, c :: cs =>
    match pat (c :: cs) with
    | some rest => subAux pat fuel rest
    | none => c :: subAux pat fuel cs

/-- `re.sub` with the empty replacement for one pattern. -/
def subWith (pat : List Char → Option (List Char)) (cs : List Char) : List Char :=
  subAux pat cs.length cs

/-- `TaskManager._clean_title_from_date`: the seven date/time patterns are
substituted away one after the other, then the result is stripped. The
`dueDate` argument is accepted but (as in the source) never used. -/
def cleanTitleFromDate (originalText : String) (_dueDate : DateTime) : String :=
  let s1 := subWith matchCleanByTime originalText.data
  let s2 := subWith matchCleanAtTime s1
  let s3 := subWith matchCleanInRelative s2
  let s4 := subWith (matchCleanPhrase "by".data "tomorrow".data) s3
  let s5 := subWith (matchCleanPhrase "by".data "today".data) s4
  let s6 := subWith (matchCleanPhrase "at".data "noon".data) s5
  let s7 := subWith (matchCleanPhrase "at".data "midnight".data) s6
  String.mk (trimChars s7)

/-- The record produced by one parse call (`parse_natural_language`'s result
dict); the due date is carried as a datetime value (the source emits its
ISO-8601 rendering, which determines and is determined by this value). -/
structure ParsedTask where
  title : String
  due_date : Option DateTime
  priority : String
  description : String
deriving DecidableEq

/-- `TaskManager.parse_natural_language`: lower-case the input, extract the
due date (cleaning the title only when one was found), extract the priority
(defaulting to medium) and the description (defaulting to empty). A
`ValueError` escaping `_extract_due_date` propagates. -/
def parseNaturalLanguage (userInput : String) (now : DateTime) :
    Except Unit ParsedTask :=
  let inputLower := toLowerStr userInput
  match extractDueDate inputLower now with
  | .error e => .error e
  | .ok dueOpt =>
    let title :=
      match dueOpt with
      | some d => cleanTitleFromDate userInput d
      | none => strTrim userInput
    let priorityVal :=
      match extractPriority inputLower with
      | some p => p
      | none => "medium"
    .ok { title := title, due_date := dueOpt, priority := priorityVal,
          description := extractDescription userInput }

/-- The intent labels returned by `AIAssistant._classify_intent`. -/
inductive Intent where
  | create_task
  | view_tasks
  | complete_task
  | delete_task
  | general_chat
deriving DecidableEq

/-- `create_keywords` of `_classify_intent`. -/
def createKeywords : List String :=
  ["remind me", "add", "create", "new task", "schedule", "set"]

/-- `view_keywords` of `_classify_intent`. -/
def viewKeywords : List String :=
  ["show", "list", "what", "tasks", "todo", "pending", "due"]

/-- `complete_keywords` of `_classify_intent`. -/
def completeKeywords : List String :=
  ["done", "complete", "finished", "mark as done"]

/-- `delete_keywords` of `_classify_intent`. -/
def deleteKeywords : List String :=
  ["delete", "remove", "cancel", "drop"]

/-- `AIAssistant._classify_intent` on the already lower-cased utterance:
the four keyword sets are tested in the fixed order create, view, complete,
delete, with a substring match deciding; the default is general chat. -/
def classifyIntentLower (userInput : String) : Intent :=
  if hasAnyKeyword createKeywords userInput then .create_task
  else if hasAnyKeyword viewKeywords userInput then .view_tasks
  else if hasAnyKeyword completeKeywords userInput then .complete_task
  else if hasAnyKeyword deleteKeywords userInput then .delete_task
  else .general_chat

/-- The classification as invoked by `process_user_input`, which lower-cases
the raw utterance first. -/
def classifyIntent (userInput : String) : Intent :=
  classifyIntentLower (toLowerStr userInput)

/-- Position matcher for `task\s*#?(\d+)` with `re.IGNORECASE`: the word
`task`, any whitespace, an optional `#`, then the captured digit run. -/
def matchTaskAt (cs : List Char) : Option Nat :=
  match ciPrefixDrop "task".data cs with
  | none => none
  | some r1 =>
    let r2 := r1.dropWhile pythonSpace
    let r3 := if r2.head? = some '#' then r2.tail else r2
    let ds := r3.takeWhile Char.isDigit
    if ds.isEmpty then none else some (natOfDigits ds)

/-- Position matcher for `#(\d+)`. -/
def matchHashAt (cs : List Char) : Option Nat :=
  match cs with
  | '#' :: t =>
    let ds := t.takeWhile Char.isDigit
    if ds.isEmpty then none else some (natOfDigits ds)
  | _ => none

/-- Position matcher for the bare-digit fallback `(\d+)`. -/
def matchDigitsAt (cs : List Char) : Option Nat :=
  match cs with
  | c :: _ =>
    if c.isDigit then some (natOfDigits (cs.takeWhile Char.isDigit)) else none
  | [] => none

/-- `AIAssistant._extract_task_reference`: the three id patterns are
searched in order and the first match's captured digits become the id. -/
def extractTaskReference (userInput : String) : Option Nat :=
  match searchWith matchTaskAt userInput.data with
  | some n => some n
  | none =>
    match searchWith matchHashAt userInput.data with
    | some n => some n
    | none => searchWith matchDigitsAt userInput.data

/-- The ambient effects available to the parse path: a stream of wall-clock
readings (`datetime.now()` samples, in call order) and a stream of random
values. The parse path makes exactly one clock read and no random draws. -/
structure Env where
  clock : Nat → DateTime
  rand : Nat → Nat

/-- `parse_natural_language` as actually invoked: its single internal
`datetime.now()` call consumes the environment's first clock reading. -/
def parseWithEnv (userInput : String) (env : Env) : Except Unit ParsedTask :=
  parseNaturalLanguage userInput (env.clock 0)

/-- One row of the `tasks` table of `database.py`. -/
structure TaskRow where
  id : Nat
  title : String
  description : String
  due_date : Option String
  priority : String
  status : String
  created_at : String
  updated_at : String
deriving DecidableEq

/-- The dynamic SET clause of `TaskDatabase.update_task`: each field given
as `some` is written, each `none` is skipped, and `updated_at` is always
written with the current timestamp. -/
def applyUpdates (r : TaskRow) (title description due_date priority status :
    Option String) (nowIso : String) : TaskRow :=
  let r1 := match title with
            | some v => { r with title := v }
            | none => r
  let r2 := match description with
            | some v => { r1 with description := v }
            | none => r1
  let r3 := match due_date with
            | some v => { r2 with due_date := some v }
            | none => r2
  let r4 := match priority with
            | some v => { r3 with priority := v }
            | none => r3
  let r5 := match status with
            | some v => { r4 with status := v }
            | none => r4
  { r5 with updated_at := nowIso }

/-- `TaskDatabase.update_task`: `UPDATE tasks SET ... WHERE id = ?` touches
exactly the rows whose id matches, and the returned boolean is
`cursor.rowcount > 0`. -/
def updateTask (db : List TaskRow) (taskId : Nat) (title description due_date
    priority status : Option String) (nowIso : String) :
    List TaskRow × Bool :=
  (db.map (fun r =>
     if r.id = taskId then
       applyUpdates r title description due_date priority status nowIso
     else r),
   decide (0 < db.countP (fun r => decide (r.id = taskId))))

/-- `TaskManager.mark_task_complete`: `update_task(task_id,
status='completed')`. -/
def markTaskComplete (db : List TaskRow) (taskId : Nat) (nowIso : String) :
    List TaskRow × Bool :=
  updateTask db taskId none none none none (some "completed") nowIso

/-- C1 (code_bug): the claim says `parse_natural_language` returns a complete
`ParsedTask` for every string and that due-date extraction yields a value or
absent for any recognized `by H[:MM]` clock expression whatever digits it
contains. The code violates this: for "finish by 25" the `by`-pattern captures
hour 25 and `datetime.replace(hour=25)` raises `ValueError`, which propagates
out of `parse_natural_language` (modelled as `Except.error ()`). -/
theorem C1_crash_on_by_25 :
    parseNaturalLanguage "finish by 25" ⟨0, 10, 0, 0, 0⟩ = .error () ∧
    extractDueDate "finish by 25" ⟨0, 10, 0, 0, 0⟩ = .error () := ⟨rfl, rfl⟩

/-- C2 counterexample: the claim says that when the `by` family does not
yield a timestamp (as for `by next <word>`) the `at` family is still
attempted. On "meet by next week at 5 pm" the code returns absent, although
the `at`-family step of the very same function resolves "5 pm" to 17:00 of
the reference day — so the at family was not attempted and the claim is
false. -/
theorem C2_counterexample :
    extractDueDate "meet by next week at 5 pm" ⟨0, 10, 0, 0, 0⟩ = .ok none ∧
    atFamily "meet by next week at 5 pm" ⟨0, 10, 0, 0, 0⟩ = .ok (some ⟨0, 17, 0, 0, 0⟩) :=
  ⟨rfl, rfl⟩

/-- C2 amended: the three families are attempted in the order by, at, in,
but the first family whose regex matches textually wins: its capture's
resolution is returned even when that resolution is absent, the later
families being attempted only when the earlier patterns match nowhere; if
no pattern matches the result is absent. -/
theorem C2_amended_order (text : String) (now : DateTime) :
    (∀ cap, searchWith matchByAt text.data = some cap →
      extractDueDate text now = parseTimeExprChars (trimChars cap) now) ∧
    (searchWith matchByAt text.data = none →
      ∀ cap, searchWith matchAtAt text.data = some cap →
        extractDueDate text now = parseTimeExprChars (trimChars cap) now) ∧
    (searchWith matchByAt text.data = none →
      searchWith matchAtAt text.data = none →
        ∀ r, searchWith matchInAt text.data = some r →
          extractDueDate text now = .ok (calcRelativeTime r.1 r.2 now)) ∧
    (searchWith matchByAt text.data = none →
      searchWith matchAtAt text.data = none →
        searchWith matchInAt text.data = none →
          extractDueDate text now = .ok none) := by
  refine ⟨fun cap h => ?_, fun h1 cap h => ?_, fun h1 h2 r h => ?_,
    fun h1 h2 h3 => ?_⟩
  · simp only [extractDueDate, h]
  · simp only [extractDueDate, h1, h]
  · simp only [extractDueDate, h1, h2, h]
  · simp only [extractDueDate, h1, h2, h3]

/-- C2 amended, witness: the four ordering components instantiated at
concrete utterances. -/
theorem C2_amended_order_witness :
    extractDueDate "by 5 pm" ⟨0, 10, 0, 0, 0⟩ =
      parseTimeExprChars (trimChars "5 pm".data) ⟨0, 10, 0, 0, 0⟩ ∧
    extractDueDate "call at noon" ⟨0, 10, 0, 0, 0⟩ =
      parseTimeExprChars (trimChars "noon".data) ⟨0, 10, 0, 0, 0⟩ ∧
    extractDueDate "ping me in 2 hours" ⟨0, 10, 0, 0, 0⟩ =
      .ok (calcRelativeTime 2 "hours".data ⟨0, 10, 0, 0, 0⟩) ∧
    extractDueDate "hello world" ⟨0, 10, 0, 0, 0⟩ = .ok none :=
  ⟨(C2_amended_order "by 5 pm" ⟨0, 10, 0, 0, 0⟩).1 "5 pm".data rfl,
   (C2_amended_order "call at noon" ⟨0, 10, 0, 0, 0⟩).2.1 rfl "noon".data rfl,
   (C2_amended_order "ping me in 2 hours" ⟨0, 10, 0, 0, 0⟩).2.2.1 rfl rfl
     (2, "hours".data) rfl,
   (C2_amended_order "hello world" ⟨0, 10, 0, 0, 0⟩).2.2.2 rfl rfl rfl⟩

/-- C3 counterexample: the claim says the parsed title is never empty. On
the utterance " by tomorrow" a temporal expression is recognized, the
date-stripping removes the whole text, and the resulting title is empty. -/
theorem C3_counterexample :
    parseNaturalLanguage " by tomorrow" ⟨0, 10, 0, 0, 0⟩ =
      .ok { title := "", due_date := some ⟨1, 9, 0, 0, 0⟩, priority := "medium",
            description := "" } := rfl

/-- C7: the literal keyword `tomorrow` resolves to the next calendar day at
09:00:00 whatever the reference time's time-of-day, and `today` resolves to
the reference day at 18:00:00 unconditionally — no forward shift even when
18:00 is already past `now`; the same holds through the full `by`-family
extraction. -/
theorem C7_tomorrow_today (now : DateTime) :
    parseTimeExprChars "tomorrow".data now = .ok (some ⟨now.day + 1, 9, 0, 0, 0⟩) ∧
    parseTimeExprChars "today".data now = .ok (some ⟨now.day, 18, 0, 0, 0⟩) ∧
    extractDueDate "finish report by tomorrow" now = .ok (some ⟨now.day + 1, 9, 0, 0, 0⟩) ∧
    extractDueDate "do it by today" now = .ok (some ⟨now.day, 18, 0, 0, 0⟩) :=
  ⟨rfl, rfl, rfl, rfl⟩

/-- C3 amended: the parsed title is the raw input trimmed when no temporal
expression is recognized, and the date-stripped trimmed text when one is;
the title may be empty (for instance when the utterance consists only of
whitespace and a date phrase, as in the counterexample). -/
theorem C3_amended_title (u : String) (now : DateTime) :
    (extractDueDate (toLowerStr u) now = .ok none →
      (parseNaturalLanguage u now).map ParsedTask.title = .ok (strTrim u)) ∧
    (∀ d, extractDueDate (toLowerStr u) now = .ok (some d) →
      (parseNaturalLanguage u now).map ParsedTask.title =
        .ok (cleanTitleFromDate u d)) := by
  constructor
  · intro h
    simp only [parseNaturalLanguage, h, Except.map]
  · intro d h
    simp only [parseNaturalLanguage, h, Except.map]

/-- C3 amended, witness: both title modes at concrete utterances. -/
theorem C3_amended_title_witness :
    (parseNaturalLanguage "call mom" ⟨0, 10, 0, 0, 0⟩).map ParsedTask.title =
      .ok (strTrim "call mom") ∧
    (parseNaturalLanguage "x by 5pm" ⟨0, 10, 0, 0, 0⟩).map ParsedTask.title =
      .ok (cleanTitleFromDate "x by 5pm" ⟨0, 17, 0, 0, 0⟩) :=
  ⟨(C3_amended_title "call mom" ⟨0, 10, 0, 0, 0⟩).1 rfl,
   (C3_amended_title "x by 5pm" ⟨0, 10, 0, 0, 0⟩).2 ⟨0, 17, 0, 0, 0⟩ rfl⟩

/-- C5: intent classification lower-cases the utterance and tests the four
keyword sets in the fixed order create, view, complete, delete, returning
the first set with a substring match and general chat when none matches
(classification is a total function by construction); in particular
"show me how to add a task", which contains both a create cue and a view
cue, is classified as create. -/
theorem C5_intent_order :
    (∀ u : String, hasAnyKeyword createKeywords (toLowerStr u) = true →
      classifyIntent u = .create_task) ∧
    (∀ u : String, hasAnyKeyword createKeywords (toLowerStr u) = false →
      hasAnyKeyword viewKeywords (toLowerStr u) = true →
      classifyIntent u = .view_tasks) ∧
    (∀ u : String, hasAnyKeyword createKeywords (toLowerStr u) = false →
      hasAnyKeyword viewKeywords (toLowerStr u) = false →
      hasAnyKeyword completeKeywords (toLowerStr u) = true →
      classifyIntent u = .complete_task) ∧
    (∀ u : String, hasAnyKeyword createKeywords (toLowerStr u) = false →
      hasAnyKeyword viewKeywords (toLowerStr u) = false →
      hasAnyKeyword completeKeywords (toLowerStr u) = false →
      hasAnyKeyword deleteKeywords (toLowerStr u) = true →
      classifyIntent u = .delete_task) ∧
    (∀ u : String, hasAnyKeyword createKeywords (toLowerStr u) = false →
      hasAnyKeyword viewKeywords (toLowerStr u) = false →
      hasAnyKeyword completeKeywords (toLowerStr u) = false →
      hasAnyKeyword deleteKeywords (toLowerStr u) = false →
      classifyIntent u = .general_chat) ∧
    classifyIntent "show me how to add a task" = .create_task := by
  refine ⟨fun u h1 => ?_, fun u h1 h2 => ?_, fun u h1 h2 h3 => ?_,
    fun u h1 h2 h3 h4 => ?_, fun u h1 h2 h3 h4 => ?_, ?_⟩
  · simp [classifyIntent, classifyIntentLower, h1]
  · simp [classifyIntent, classifyIntentLower, h1, h2]
  · simp [classifyIntent, classifyIntentLower, h1, h2, h3]
  · simp [classifyIntent, classifyIntentLower, h1, h2, h3, h4]
  · simp [classifyIntent, classifyIntentLower, h1, h2, h3, h4]
  · rfl

/-- C5 witness: each precedence branch instantiated at a concrete
utterance. -/
theorem C5_intent_order_witness :
    classifyIntent "add milk" = .create_task ∧
    classifyIntent "show my items" = .view_tasks ∧
    classifyIntent "finished!" = .complete_task ∧
    classifyIntent "drop it" = .delete_task ∧
    classifyIntent "hello" = .general_chat := by
  have h := C5_intent_order
  exact ⟨h.1 "add milk" (by decide),
    h.2.1 "show my items" (by decide) (by decide),
    h.2.2.1 "finished!" (by decide) (by decide) (by decide),
    h.2.2.2.1 "drop it" (by decide) (by decide) (by decide) (by decide),
    h.2.2.2.2.1 "hello" (by decide) (by decide) (by decide) (by decide)⟩

/-- C6: the parse path is a pure function of the utterance and the single
wall-clock sample it reads — two environments agreeing on that sample (with
arbitrarily different randomness streams and later clock readings) produce
identical `ParsedTask` results, so two runs with identical inputs are
byte-identical. -/
theorem C6_parse_deterministic (u : String) (e1 e2 : Env)
    (h : e1.clock 0 = e2.clock 0) :
    parseWithEnv u e1 = parseWithEnv u e2 := by
  simp only [parseWithEnv, h]

/-- C6 witness: identical clock sample, different randomness streams and
later clock values. -/
theorem C6_parse_deterministic_witness :
    parseWithEnv "remind me to call mom at 3 pm"
        ⟨fun _ => ⟨0, 10, 0, 0, 0⟩, fun _ => 0⟩ =
      parseWithEnv "remind me to call mom at 3 pm"
        ⟨fun n => ⟨(n : Int), 10, 0, 0, 0⟩, fun n => n + 37⟩ :=
  C6_parse_deterministic "remind me to call mom at 3 pm"
    ⟨fun _ => ⟨0, 10, 0, 0, 0⟩, fun _ => 0⟩
    ⟨fun n => ⟨(n : Int), 10, 0, 0, 0⟩, fun n => n + 37⟩ rfl

/-- C10: marking a task complete rewrites exactly the rows whose id matches,
and on those rows exactly the status (to completed) and the update
timestamp — title, description, due date and priority are untouched and all
other rows are returned unchanged; the returned boolean is true exactly when
a row with the requested id exists. -/
theorem C10_complete_frame (db : List TaskRow) (taskId : Nat) (nowIso : String) :
    (markTaskComplete db taskId nowIso).1 =
      db.map (fun r => if r.id = taskId then
        { r with status := "completed", updated_at := nowIso } else r) ∧
    ((markTaskComplete db taskId nowIso).2 = true ↔ ∃ r ∈ db, r.id = taskId) := by
  constructor
  · rfl
  · simp [markTaskComplete, updateTask, List.countP_pos_iff]

/-- C10 witness: a one-row store, updated in place with the boolean true. -/
theorem C10_complete_frame_witness :
    (markTaskComplete [⟨1, "a", "b", none, "medium", "pending", "c0", "u0"⟩] 1 "T").2
        = true ∧
    (markTaskComplete [⟨1, "a", "b", none, "medium", "pending", "c0", "u0"⟩] 1 "T").1
        = [⟨1, "a", "b", none, "medium", "completed", "c0", "T"⟩] := by
  have h := C10_complete_frame
    [⟨1, "a", "b", none, "medium", "pending", "c0", "u0"⟩] 1 "T"
  exact ⟨h.2.mpr ⟨⟨1, "a", "b", none, "medium", "pending", "c0", "u0"⟩, by simp, rfl⟩,
    by rw [h.1]; rfl⟩

/-- Helper: the priority stored by `parse_natural_language` is the extracted
priority when present and medium otherwise. -/
theorem parsePriorityEq (u : String) (now : DateTime) (r : ParsedTask)
    (hok : parseNaturalLanguage u now = .ok r) :
    r.priority = (extractPriority (toLowerStr u)).getD "medium" := by
  simp only [parseNaturalLanguage] at hok
  cases hdu : extractDueDate (toLowerStr u) now with
  | error e => rw [hdu] at hok; cases hok
  | ok dueOpt =>
    rw [hdu] at hok
    simp only [Except.ok.injEq] at hok
    subst hok
    cases hp : extractPriority (toLowerStr u) <;> simp [hp]

/-- C8: priority extraction scans the lower-cased text against the three
keyword maps in declaration order high, medium, low, the first map with a
substring match winning, and yields absent when none matches, in which case
the parser defaults the priority to medium; with the claim's examples. -/
theorem C8_priority_order :
    (∀ t : String,
      hasAnyKeyword ["urgent", "asap", "immediately", "critical", "important", "high"] t
          = true →
      extractPriority t = some "high") ∧
    (∀ t : String,
      hasAnyKeyword ["urgent", "asap", "immediately", "critical", "important", "high"] t
          = false →
      hasAnyKeyword ["normal", "regular", "medium"] t = true →
      extractPriority t = some "medium") ∧
    (∀ t : String,
      hasAnyKeyword ["urgent", "asap", "immediately", "critical", "important", "high"] t
          = false →
      hasAnyKeyword ["normal", "regular", "medium"] t = false →
      hasAnyKeyword ["low", "later", "whenever", "optional"] t = true →
      extractPriority t = some "low") ∧
    (∀ t : String,
      hasAnyKeyword ["urgent", "asap", "immediately", "critical", "important", "high"] t
          = false →
      hasAnyKeyword ["normal", "regular", "medium"] t = false →
      hasAnyKeyword ["low", "later", "whenever", "optional"] t = false →
      extractPriority t = none) ∧
    extractPriority "this is urgent" = some "high" ∧
    extractPriority "whenever you can" = some "low" ∧
    extractPriority "buy milk" = none ∧
    (∀ (u : String) (now : DateTime) (r : ParsedTask),
      parseNaturalLanguage u now = .ok r →
      extractPriority (toLowerStr u) = none → r.priority = "medium") := by
  refine ⟨fun t h1 => ?_, fun t h1 h2 => ?_, fun t h1 h2 h3 => ?_,
    fun t h1 h2 h3 => ?_, rfl, rfl, rfl, fun u now r hok hnone => ?_⟩
  · simp [extractPriority, priorityKeywords, findPriority, h1]
  · simp [extractPriority, priorityKeywords, findPriority, h1, h2]
  · simp [extractPriority, priorityKeywords, findPriority, h1, h2, h3]
  · simp [extractPriority, priorityKeywords, findPriority, h1, h2, h3]
  · rw [parsePriorityEq u now r hok, hnone]; rfl

/-- C8 witness: each keyword-map branch, the absent case and the parser
default at concrete inputs. -/
theorem C8_priority_order_witness :
    extractPriority "abc urgent" = some "high" ∧
    extractPriority "a normal one" = some "medium" ∧
    extractPriority "do it later" = some "low" ∧
    extractPriority "xyz" = none ∧
    (parseNaturalLanguage "xyz" ⟨0, 10, 0, 0, 0⟩).map ParsedTask.priority
        = .ok "medium" := by
  have h := C8_priority_order
  refine ⟨h.1 "abc urgent" (by decide),
    h.2.1 "a normal one" (by decide) (by decide),
    h.2.2.1 "do it later" (by decide) (by decide) (by decide),
    h.2.2.2.1 "xyz" (by decide) (by decide) (by decide), ?_⟩
  have h2 := h.2.2.2.2.2.2.2 "xyz" ⟨0, 10, 0, 0, 0⟩
    { title := "xyz", due_date := none, priority := "medium", description := "" }
    rfl (by decide)
  simp [show parseNaturalLanguage "xyz" ⟨0, 10, 0, 0, 0⟩ =
    .ok { title := "xyz", due_date := none, priority := "medium", description := "" }
    from rfl, h2, Except.map]

/-- Helper: a digit run is empty when the list holds no digit. -/
theorem takeWhileDigitNil (l : List Char) (h : ∀ c ∈ l, c.isDigit = false) :
    l.takeWhile Char.isDigit = [] := by
  cases l with
  | nil => rfl
  | cons c t => simp [List.takeWhile_cons, h c (List.mem_cons_self c t)]

/-- Helper: the remainder of a case-insensitive literal match is a sublist of the input. -/
theorem ciPrefixDropSublist :
    ∀ (pat cs r : List Char), ciPrefixDrop pat cs = some r → r.Sublist cs := by
  intro pat
  induction pat with
  | nil =>
    intro cs r h
    simp only [ciPrefixDrop, Option.some.injEq] at h
    subst h
    exact List.Sublist.refl _
  | cons p ps ih =>
    intro cs r h
    cases cs with
    | nil => cases h
    | cons c cs2 =>
      simp only [ciPrefixDrop] at h
      by_cases hc : c.toLower = p
      · rw [if_pos hc] at h
        exact (ih cs2 r h).cons c
      · rw [if_neg hc] at h
        cases h

/-- Helper: a search whose position matcher fails on every digit-free suffix fails on a digit-free input. -/
theorem searchWithNone {α : Type} (m : List Char → Option α)
    (hm : ∀ cs, (∀ c ∈ cs, c.isDigit = false) → m cs = none) :
    ∀ cs, (∀ c ∈ cs, c.isDigit = false) → searchWith m cs = none := by
  intro cs
  induction cs with
  | nil =>
    intro h
    simpa [searchWith] using hm [] h
  | cons c rest ih =>
    intro h
    simp only [searchWith]
    rw [hm (c :: rest) h]
    exact ih (fun x hx => h x (List.mem_cons_of_mem c hx))

/-- Helper: the `task`-id pattern needs a digit. -/
theorem matchTaskAtNoDigit (cs : List Char)
    (h : ∀ c ∈ cs, c.isDigit = false) : matchTaskAt cs = none := by
  unfold matchTaskAt
  cases hp : ciPrefixDrop "task".data cs with
  | none => rfl
  | some r1 =>
    have hr1 : ∀ c ∈ r1, c.isDigit = false :=
      fun c hc => h c ((ciPrefixDropSublist _ _ _ hp).subset hc)
    have hr2 : ∀ c ∈ List.dropWhile pythonSpace r1, c.isDigit = false :=
      fun c hc => hr1 c ((List.dropWhile_sublist _).subset hc)
    have hr3 : ∀ c ∈ (if (List.dropWhile pythonSpace r1).head? = some '#'
        then (List.dropWhile pythonSpace r1).tail
        else List.dropWhile pythonSpace r1), c.isDigit = false := by
      split
      · exact fun c hc => hr2 c ((List.tail_sublist _).subset hc)
      · exact hr2
    simp only [takeWhileDigitNil _ hr3, List.isEmpty_nil, if_true]

/-- Helper: the hash-id pattern needs a digit. -/
theorem matchHashAtNoDigit (cs : List Char)
    (h : ∀ c ∈ cs, c.isDigit = false) : matchHashAt cs = none := by
  unfold matchHashAt
  cases cs with
  | nil => rfl
  | cons c t =>
    split
    · next t2 heq =>
      have ht2 : ∀ x ∈ t2, x.isDigit = false := by
        intro x hx
        have hmem : x ∈ c :: t := by
          rw [heq]
          exact List.mem_cons_of_mem '#' hx
        exact h x hmem
      simp [takeWhileDigitNil _ ht2]
    · rfl

/-- Helper: the bare-digit pattern needs a digit. -/
theorem matchDigitsAtNoDigit (cs : List Char)
    (h : ∀ c ∈ cs, c.isDigit = false) : matchDigitsAt cs = none := by
  unfold matchDigitsAt
  cases cs with
  | nil => rfl
  | cons c t => simp [h c (List.mem_cons_self c t)]

/-- Helper: the bare-digit fallback search succeeds whenever some digit occurs. -/
theorem matchDigitsAtSearchSome :
    ∀ cs : List Char, (∃ c ∈ cs, c.isDigit = true) →
      (searchWith matchDigitsAt cs).isSome = true := by
  intro cs
  induction cs with
  | nil =>
    rintro ⟨c, hc, _⟩
    cases hc
  | cons c rest ih =>
    rintro ⟨d, hd, hdig⟩
    simp only [searchWith]
    rcases List.mem_cons.mp hd with h1 | h1
    · subst h1
      simp [matchDigitsAt, hdig]
    · cases hm : matchDigitsAt (c :: rest) with
      | some n => simp
      | none => simpa using ih ⟨d, h1, hdig⟩

/-- C9: the reference resolver tries the three numeric patterns in the
fixed order `task #?N`, then `#N`, then bare `N`, returning the integer
captured by the first pattern that matches anywhere in the utterance, and
returns absent exactly when the utterance contains no digit; the examples
include utterances on which the three patterns capture different numbers,
pinning the order. -/
theorem C9_reference_resolution :
    (∀ (u : String) (n : Nat), searchWith matchTaskAt u.data = some n →
      extractTaskReference u = some n) ∧
    (∀ (u : String) (n : Nat), searchWith matchTaskAt u.data = none →
      searchWith matchHashAt u.data = some n →
      extractTaskReference u = some n) ∧
    (∀ u : String, searchWith matchTaskAt u.data = none →
      searchWith matchHashAt u.data = none →
      extractTaskReference u = searchWith matchDigitsAt u.data) ∧
    (∀ u : String, extractTaskReference u = none ↔
      u.data.all (fun c => !c.isDigit) = true) ∧
    extractTaskReference "delete task #7" = some 7 ∧
    extractTaskReference "remove item" = none ∧
    extractTaskReference "#3 task 8" = some 8 ∧
    extractTaskReference "2 then #9" = some 9 ∧
    extractTaskReference "at 5" = some 5 := by
  refine ⟨fun u n h1 => ?_, fun u n h1 h2 => ?_, fun u h1 h2 => ?_,
    fun u => ⟨fun h => ?_, fun h => ?_⟩, rfl, rfl, rfl, rfl, rfl⟩
  · simp only [extractTaskReference, h1]
  · simp only [extractTaskReference, h1, h2]
  · simp only [extractTaskReference, h1, h2]
  · rw [List.all_eq_true]
    intro c hc
    by_contra hdig
    have hdig2 : c.isDigit = true := by
      simpa using hdig
    have hsome := matchDigitsAtSearchSome u.data ⟨c, hc, hdig2⟩
    unfold extractTaskReference at h
    cases h1 : searchWith matchTaskAt u.data with
    | some n =>
      simp only [h1] at h
      exact Option.noConfusion h
    | none =>
      simp only [h1] at h
      cases h2 : searchWith matchHashAt u.data with
      | some n =>
        simp only [h2] at h
        exact Option.noConfusion h
      | none =>
        simp only [h2] at h
        rw [h] at hsome
        cases hsome
  · have hnd : ∀ c ∈ u.data, c.isDigit = false := by
      rw [List.all_eq_true] at h
      intro c hc
      simpa using h c hc
    simp only [extractTaskReference,
      searchWithNone matchTaskAt matchTaskAtNoDigit u.data hnd,
      searchWithNone matchHashAt matchHashAtNoDigit u.data hnd,
      searchWithNone matchDigitsAt matchDigitsAtNoDigit u.data hnd]

/-- C9 witness: all three ordering components and the characterization
applied at concrete utterances, discharging every hypothesis. -/
theorem C9_reference_resolution_witness :
    extractTaskReference "do task 12" = some 12 ∧
    extractTaskReference "fix #4 now" = some 4 ∧
    extractTaskReference "call 6" = searchWith matchDigitsAt "call 6".data ∧
    extractTaskReference "zzz" = none := by
  have h := C9_reference_resolution
  exact ⟨h.1 "do task 12" 12 rfl,
    h.2.1 "fix #4 now" 4 rfl rfl,
    h.2.2.1 "call 6" rfl rfl,
    (h.2.2.2.1 "zzz").mpr (by decide)⟩

/-- Helper: a successful clock-time match starts with a digit (so the
literal-keyword branches of `_parse_time_expression` cannot have fired). -/
theorem matchTimeDigitHead (cs : List Char) (x : Nat × Nat × Option AmPm)
    (h : matchTime cs = some x) :
    ∃ c rest, cs = c :: rest ∧ c.isDigit = true := by
  cases cs with
  | nil => cases h
  | cons c rest =>
    refine ⟨c, rest, rfl, ?_⟩
    by_contra hd
    simp only [Bool.not_eq_true] at hd
    simp [matchTime, hd] at h

/-- C4: for every clock-time expression recognized by the time pattern
(and whose 12-hour conversion yields a representable time, cf. C1) and every
valid reference time: the hour is converted by the 12-hour convention
(`hour24`), the moment is anchored to the reference day with the given
minute and zero seconds, the result is exactly that moment plus one day when
the moment is at or before `now`, exactly that moment otherwise, and the
result is always strictly after `now` — never the same passed moment and
never more than one day later. -/
theorem C4_clock_resolution (ts : List Char) (base : DateTime) (h m : Nat)
    (pd : Option AmPm)
    (hmatch : matchTime (ts.map Char.toLower) = some (h, m, pd))
    (hh : hour24 pd h < 24) (hm2 : m < 60) (hv : base.Valid) :
    ∃ res : DateTime,
      parseTimeExprChars ts base = .ok (some res) ∧
      ((DateTime.mk base.day (hour24 pd h) m 0 0).toMicros ≤ base.toMicros →
        res = (DateTime.mk base.day (hour24 pd h) m 0 0).addDays 1) ∧
      (base.toMicros < (DateTime.mk base.day (hour24 pd h) m 0 0).toMicros →
        res = DateTime.mk base.day (hour24 pd h) m 0 0) ∧
      base.toMicros < res.toMicros := by
  obtain ⟨c, rest, hcs, hcd⟩ := matchTimeDigitHead _ _ hmatch
  have hne1 : ts.map Char.toLower ≠ "tomorrow".data := by
    rw [hcs]
    intro he
    injection he with h1 _
    rw [h1] at hcd
    exact absurd hcd (by decide)
  have hne2 : ts.map Char.toLower ≠ "today".data := by
    rw [hcs]
    intro he
    injection he with h1 _
    rw [h1] at hcd
    exact absurd hcd (by decide)
  have hne3 : ts.map Char.toLower ≠ "noon".data := by
    rw [hcs]
    intro he
    injection he with h1 _
    rw [h1] at hcd
    exact absurd hcd (by decide)
  have hne4 : ts.map Char.toLower ≠ "midnight".data := by
    rw [hcs]
    intro he
    injection he with h1 _
    rw [h1] at hcd
    exact absurd hcd (by decide)
  obtain ⟨hvh, hvm, hvs, hvu⟩ := hv
  simp only [parseTimeExprChars, if_neg hne1, if_neg hne2, if_neg hne3,
    if_neg hne4, hmatch, DateTime.replaceHM, if_pos (And.intro hh hm2)]
  by_cases hle : (DateTime.mk base.day (hour24 pd h) m 0 0).toMicros ≤ base.toMicros
  · refine ⟨(DateTime.mk base.day (hour24 pd h) m 0 0).addDays 1, ?_,
      fun _ => rfl, fun hlt => absurd hle (not_le.mpr hlt), ?_⟩
    · rw [if_pos hle]
    · simp only [DateTime.toMicros, DateTime.addDays] at *
      omega
  · refine ⟨DateTime.mk base.day (hour24 pd h) m 0 0, ?_,
      fun hle2 => absurd hle2 hle, fun _ => rfl, ?_⟩
    · rw [if_neg hle]
    · simp only [DateTime.toMicros] at *
      omega

/-- C4 witness: "3 pm" against a 10:00 reference time. -/
theorem C4_clock_resolution_witness :
    hour24 (some AmPm.pm) 3 < 24 ∧ (0 : Nat) < 60 ∧
    DateTime.Valid ⟨0, 10, 0, 0, 0⟩ ∧
    (∃ res : DateTime,
      parseTimeExprChars "3 pm".data ⟨0, 10, 0, 0, 0⟩ = .ok (some res) ∧
      ((DateTime.mk (0 : Int) (hour24 (some AmPm.pm) 3) 0 0 0).toMicros ≤
          (⟨0, 10, 0, 0, 0⟩ : DateTime).toMicros →
        res = (DateTime.mk (0 : Int) (hour24 (some AmPm.pm) 3) 0 0 0).addDays 1) ∧
      ((⟨0, 10, 0, 0, 0⟩ : DateTime).toMicros <
          (DateTime.mk (0 : Int) (hour24 (some AmPm.pm) 3) 0 0 0).toMicros →
        res = DateTime.mk (0 : Int) (hour24 (some AmPm.pm) 3) 0 0 0) ∧
      (⟨0, 10, 0, 0, 0⟩ : DateTime).toMicros < res.toMicros) :=
  ⟨by decide, by decide, by decide,
    C4_clock_resolution "3 pm".data ⟨0, 10, 0, 0, 0⟩ 3 0 (some AmPm.pm)
      (by decide) (by decide) (by decide) (by decide)⟩
